import Mathlib

/-!
Verification development for the Shift Assignment & Event Reconciliation
Engine of `src/app.py` (RDM Timesheet Auditor).

Modelling conventions:
* Timestamps are minutes since an arbitrary epoch, as `Int`.  A calendar
  date is the floor of that count by 1440 (the minutes of one day), which
  matches `.date()` on a Python naive datetime; `/` and `%` on `Int` are
  Euclidean division and remainder, i.e. floor division and a remainder in
  `[0, 1440)` for the positive divisor 1440 — exactly Python semantics.
* Event types and exception reasons are the literal strings of the source
  (`"Start Work"`, `"Site In"`, `"End Work"`, `"Site Out"`,
  `"Missing Logout"`, `"Logout without Login"`).
* A pandas `NaN` cell is `Option.none`; `pd.notna` is `Option.isSome`.
* String manipulation is implemented over the character list of the
  string so that every definition evaluates by `decide`/`rfl`.
-/

/-! ### Name normalisation (`clean_name`, app.py lines 23–25) -/

/-- `clean_name` (app.py lines 23–25): uppercase the name, then keep only
ASCII letters and digits (`re.sub(r'[^a-zA-Z0-9]', '', str(name).upper())`).
A missing name (`pd.isna`) is modelled as the empty string, which the
source returns for that case. -/
def clean_name (s : String) : String :=
  String.mk ((s.data.map Char.toUpper).filter fun c => c.isAlpha || c.isDigit)

/-! ### Start-date parsing (`parse_date_manual`, app.py lines 11–21) -/

/-- `re.split(r'[_ ]', user_input)` (app.py line 13): split at every single
underscore or space; consecutive separators produce empty fields, and the
result is never the empty list. -/
def splitSepAux : List Char → List Char → List String
  | [], acc => [String.mk acc.reverse]
  | c :: cs, acc =>
    if c = '_' || c = ' ' then String.mk acc.reverse :: splitSepAux cs []
    else splitSepAux cs (c :: acc)

/-- The token list `clean_input` of app.py line 13. -/
def splitTokens (s : String) : List String := splitSepAux s.data []

/-- ASCII whitespace accepted around a Python `int()` literal. -/
def isPySpace (c : Char) : Bool :=
  c = ' ' || c = '\t' || c = '\n' || c = '\r' || c = '\x0b' || c = '\x0c'

/-- Strip leading and trailing whitespace from a character list. -/
def trimChars (l : List Char) : List Char :=
  ((l.dropWhile isPySpace).reverse.dropWhile isPySpace).reverse

/-- Value of a non-empty all-digit character list. -/
def digitsToNat : List Char → Option Nat
  | l => if !l.isEmpty && l.all Char.isDigit
         then some (l.foldl (fun n c => 10 * n + (c.toNat - 48)) 0)
         else none

/-- Python `int(str)` (app.py line 14): surrounding whitespace, an optional
sign, then a non-empty run of decimal digits; anything else raises (here:
`none`). -/
def pyInt (s : String) : Option Int :=
  match trimChars s.data with
  | '-' :: rest => (digitsToNat rest).map fun n => -(n : Int)
  | '+' :: rest => (digitsToNat rest).map fun n => (n : Int)
  | l => (digitsToNat l).map fun n => (n : Int)

/-- Python `str.capitalize()`: first character uppercased, the rest
lowercased (app.py line 15). -/
def pyCapitalize : List Char → List Char
  | [] => []
  | c :: cs => c.toUpper :: cs.map Char.toLower

/-- `clean_input[1].capitalize()[:3]` of app.py line 15. -/
def cap3 (s : String) : String := String.mk ((pyCapitalize s.data).take 3)

/-- The `month_map` dictionary of app.py lines 17–18; lookup without the
dictionary's `.get` default. -/
def month_map (s : String) : Option Nat :=
  if s = "Jan" then some 1 else if s = "Feb" then some 2
  else if s = "Mar" then some 3 else if s = "Apr" then some 4
  else if s = "May" then some 5 else if s = "Jun" then some 6
  else if s = "Jul" then some 7 else if s = "Aug" then some 8
  else if s = "Sep" then some 9 else if s = "Oct" then some 10
  else if s = "Nov" then some 11 else if s = "Dec" then some 12
  else none

/-- Day count of each month of 2026 (not a leap year, so February has 28):
`datetime(2026, m, d)` raises exactly when `d` is outside `1..days`. -/
def days_in_month (m : Nat) : Nat :=
  if m = 2 then 28
  else if m = 4 || m = 6 || m = 9 || m = 11 then 30
  else 31

/-- A Python `datetime` date triple as returned by `parse_date_manual`. -/
structure PyDate where
  year : Nat
  month : Nat
  day : Nat
deriving DecidableEq

/-- `parse_date_manual` (app.py lines 11–21): split the input on `_`/space,
parse the first token with `int`, map the capitalized 3-letter cut of the
second token through `month_map` **with default month 1**
(`month_map.get(month_str, 1)`, line 19), and build `datetime(2026, m, d)`;
any raised exception (missing token, bad integer, day out of range) yields
`None`. -/
def parse_date_manual (user_input : String) : Option PyDate :=
  match splitTokens user_input with
  | dayTok :: monthTok :: _ =>
    match pyInt dayTok with
    | some d =>
      let m := (month_map (cap3 monthTok)).getD 1
      if 1 ≤ d ∧ d ≤ (days_in_month m : Int) then some ⟨2026, m, d.toNat⟩
      else none
    | none => none
  | _ => none

/-! ### Events and the operational-day assignment (app.py lines 58–68) -/

/-- One row of the timesheet after parsing (app.py lines 58–68): the raw
name, the parsed `DateTime` in minutes, the `Type` string, and the
`Remark` cell where `none` models pandas `NaN` (an empty cell in the
uploaded file). -/
structure RawEvent where
  name : String
  dateTime : Int
  eventType : String
  remark : Option String
deriving DecidableEq

/-- The shift-day offset of app.py line 66 (`timedelta(hours=5)`), the
single place the value occurs in the engine. -/
def OFFSET_HOURS : Int := 5

/-- `WorkDate` (app.py line 66): the calendar date of
`DateTime - timedelta(hours=OFFSET_HOURS)`. -/
def assignDay (t : Int) : Int := (t - OFFSET_HOURS * 60) / 1440

/-- The plain wall-clock calendar date of a timestamp (`.date()`). -/
def dateOf (t : Int) : Int := t / 1440

/-- `TimeOnly` (app.py line 67): the time-of-day component in minutes. -/
def timeOnly (t : Int) : Int := t % 1440

/-! ### The per-day classifier (app.py lines 92–147) -/

/-- The value held by the `login_time` / `logout_time` variables of
app.py lines 92–130: a concrete time of day, the `"NO LOGIN"` /
`"NO LOGOUT"` sentinel string, or Python `None`. -/
inductive Cell where
  | time (t : Int)
  | sentinel
  | absent
deriving DecidableEq

/-- `sort_values('DateTime').iloc[0]` on a filtered frame (app.py lines
103, 106): an event of minimal timestamp.  pandas' unstable sort makes the
choice among equal timestamps incidental; every equal-timestamp candidate
yields the same `TimeOnly`, so the first minimal element stands in. -/
def earliest (l : List RawEvent) : Option RawEvent := l.argmin (·.dateTime)

/-- `sort_values('DateTime').iloc[-1]` (app.py line 115): an event of
maximal timestamp, same remark on ties as for `earliest`. -/
def latest (l : List RawEvent) : Option RawEvent := l.argmax (·.dateTime)

/-- Login selection (app.py lines 98–109): the earliest `Start Work` event
if any, else the earliest `Site In` event if any, else the `"NO LOGIN"`
sentinel. -/
def selectLogin (dayLogs : List RawEvent) : Cell :=
  match earliest (dayLogs.filter fun e => e.eventType == "Start Work") with
  | some e => Cell.time (timeOnly e.dateTime)
  | none =>
    match earliest (dayLogs.filter fun e => e.eventType == "Site In") with
    | some e => Cell.time (timeOnly e.dateTime)
    | none => Cell.sentinel

/-- `df['Type'].isin(['End Work', 'Site Out'])` (app.py line 112). -/
def isLogoutType (e : RawEvent) : Bool :=
  e.eventType == "End Work" || e.eventType == "Site Out"

/-- Logout selection (app.py lines 111–119): pool `End Work` and
`Site Out` events and take the latest of the pool, else the `"NO LOGOUT"`
sentinel. -/
def selectLogout (dayLogs : List RawEvent) : Cell :=
  match latest (dayLogs.filter isLogoutType) with
  | some e => Cell.time (timeOnly e.dateTime)
  | none => Cell.sentinel

/-- One row of `exception_logs` (app.py lines 128, 130).  The `time` field
stores whatever value the `login_time`/`logout_time` variable held, hence
a `Cell`. -/
structure ExceptionRec where
  name : String
  date : Int
  time : Cell
  reason : String
deriving DecidableEq

/-- One row of `remark_logs` (app.py lines 136–143). -/
structure RemarkRec where
  name : String
  day : Int
  time : Int
  login : Bool
  logout : Bool
  remark : String
deriving DecidableEq

/-- Everything the loop body of app.py lines 88–147 produces for one
employee-day. -/
structure DayResult where
  login : Cell
  logout : Cell
  hasLogin : Bool
  hasLogout : Bool
  exceptions : List ExceptionRec
  remarks : List RemarkRec
deriving DecidableEq

/-- The body of the inner loop of `process_data` for one employee and one
operational day (app.py lines 88–147): when `day_logs` is empty nothing
runs and both times stay `None`; otherwise login/logout selection
(lines 98–119), the empty-day cleanup (lines 121–124), the exception
rules (lines 126–130) and the remark collection (lines 132–143). -/
def processDay (originalName : String) (workDate : Int)
    (dayLogs : List RawEvent) : DayResult :=
  if dayLogs = [] then ⟨Cell.absent, Cell.absent, false, false, [], []⟩
  else
    let login0 := selectLogin dayLogs
    let logout0 := selectLogout dayLogs
    let hasLogin := !(dayLogs.filter fun e => e.eventType == "Start Work").isEmpty
                 || !(dayLogs.filter fun e => e.eventType == "Site In").isEmpty
    let hasLogout := !(dayLogs.filter isLogoutType).isEmpty
    let login1 := if login0 = Cell.sentinel ∧ logout0 = Cell.sentinel
                  then Cell.absent else login0
    let logout1 := if login0 = Cell.sentinel ∧ logout0 = Cell.sentinel
                   then Cell.absent else logout0
    let excs : List ExceptionRec :=
      if logout1 = Cell.sentinel ∧ ¬login1 = Cell.absent then
        [⟨originalName, workDate, login1, "Missing Logout"⟩]
      else if login1 = Cell.sentinel ∧ ¬logout1 = Cell.absent then
        [⟨originalName, workDate, logout1, "Logout without Login"⟩]
      else []
    let rems : List RemarkRec := dayLogs.filterMap fun e =>
      match e.remark with
      | some r =>
        some ⟨originalName, workDate, timeOnly e.dateTime, hasLogin, hasLogout, r⟩
      | none => none
    ⟨login1, logout1, hasLogin, hasLogout, excs, rems⟩

/-! ### Roster map and the aggregator (app.py lines 76–151) -/

/-- One insertion into a Python `dict`: an existing key keeps its position
and gets the new value, a new key is appended (insertion order). -/
def upsert : List (String × String) → String → String → List (String × String)
  | [], k, v => [(k, v)]
  | p :: rest, k, v =>
    if p.1 = k then (k, v) :: rest else p :: upsert rest k v

/-- `attendance_map` (app.py line 78): the dict comprehension
`{clean_name(name): name for name in raw_employee_list}` — a later roster
row with the same normalized key overwrites the earlier one. -/
def attendance_map (roster : List String) : List (String × String) :=
  roster.foldl (fun m n => upsert m (clean_name n) n) []

/-- Python `dict` lookup on the association-list model. -/
def lookupKey : List (String × String) → String → Option String
  | [], _ => none
  | p :: rest, k => if p.1 = k then some p.2 else lookupKey rest k

/-- `emp_records[emp_records['WorkDate'] == work_date]` for one employee
(app.py lines 86, 90).  `sort_values('DateTime')` at line 86 only moves
equal-timestamp rows relative to the filter order, and every later use is
a timestamp extremum or an order-insensitive count, so the filter stands
in for the sorted frame. -/
def dayEvents (events : List RawEvent) (key : String) (d : Int) : List RawEvent :=
  events.filter fun e => clean_name e.name == key && assignDay e.dateTime == d

/-- The seven operational days of the window (app.py line 41). -/
def dateRange (start : Int) : List Int :=
  [start, start + 1, start + 2, start + 3, start + 4, start + 5, start + 6]

/-- The reconciliation core of `process_data` (app.py lines 76–151): one
result set per `attendance_map` entry, keyed by the retained original
name, holding the seven per-day results. -/
def process_data (events : List RawEvent) (roster : List String)
    (start : Int) : List (String × List DayResult) :=
  (attendance_map roster).map fun p =>
    (p.2, (dateRange start).map fun d => processDay p.2 d (dayEvents events p.1 d))

/-- pandas `read_csv`/`read_excel` (app.py lines 45–48) deliver an empty
`Remark` cell as `NaN`; a row of the uploaded file therefore reaches the
engine with `remark = none` exactly when its remark text is empty. -/
structure RawRow where
  name : String
  dateTime : Int
  eventType : String
  remark : String
deriving DecidableEq

/-- Ingestion of one uploaded row (app.py lines 45–48 plus the parsing of
lines 58–68): the empty remark cell becomes `NaN` (`none`). -/
def ingest (r : RawRow) : RawEvent :=
  ⟨r.name, r.dateTime, r.eventType, if r.remark = "" then none else some r.remark⟩

/-- Formalisation of the spec's "well-formed day-plus-month value": the
input splits into a day token and a month token, the day token is an
integer, the month token names a real month through the
capitalize-and-cut-to-3 normalisation, and the day is in range for that
month in 2026. -/
def wellFormedDayMonth (s : String) : Prop :=
  ∃ dayTok monthTok rest, splitTokens s = dayTok :: monthTok :: rest ∧
    ∃ d m, pyInt dayTok = some d ∧ month_map (cap3 monthTok) = some m ∧
      1 ≤ d ∧ d ≤ (days_in_month m : Int)

/-! ### Helper lemmas -/

/-- `selectLogin` never yields the `None` value: the classifier produces a
time or the sentinel. -/
lemma selectLogin_cases (logs : List RawEvent) :
    selectLogin logs = Cell.sentinel ∨ ∃ t, selectLogin logs = Cell.time t := by
  unfold selectLogin
  cases earliest (logs.filter fun e => e.eventType == "Start Work") with
  | some e => exact Or.inr ⟨_, rfl⟩
  | none =>
    cases earliest (logs.filter fun e => e.eventType == "Site In") with
    | some e => exact Or.inr ⟨_, rfl⟩
    | none => exact Or.inl rfl

/-- `selectLogout` never yields the `None` value. -/
lemma selectLogout_cases (logs : List RawEvent) :
    selectLogout logs = Cell.sentinel ∨ ∃ t, selectLogout logs = Cell.time t := by
  unfold selectLogout
  cases latest (logs.filter isLogoutType) with
  | some e => exact Or.inr ⟨_, rfl⟩
  | none => exact Or.inl rfl

/-- `processDay` on a non-empty day without the empty-day cleanup: the
resolved cells are the classifier's output and the exception list follows
the two rules of app.py lines 126–130. -/
lemma processDay_no_cleanup (nm : String) (wd : Int) (dayLogs : List RawEvent)
    (hd : dayLogs ≠ [])
    (hc : ¬(selectLogin dayLogs = Cell.sentinel ∧ selectLogout dayLogs = Cell.sentinel)) :
    (processDay nm wd dayLogs).login = selectLogin dayLogs ∧
    (processDay nm wd dayLogs).logout = selectLogout dayLogs ∧
    (processDay nm wd dayLogs).exceptions =
      (if selectLogout dayLogs = Cell.sentinel ∧ ¬selectLogin dayLogs = Cell.absent then
        [⟨nm, wd, selectLogin dayLogs, "Missing Logout"⟩]
      else if selectLogin dayLogs = Cell.sentinel ∧ ¬selectLogout dayLogs = Cell.absent then
        [⟨nm, wd, selectLogout dayLogs, "Logout without Login"⟩]
      else []) := by
  refine ⟨?_, ?_, ?_⟩ <;> simp [processDay, hd, hc]

/-- `processDay` on a non-empty day whose classifier found neither a login
nor a logout: the cleanup of app.py lines 121–124 empties both cells and
no exception fires. -/
lemma processDay_cleanup (nm : String) (wd : Int) (dayLogs : List RawEvent)
    (hd : dayLogs ≠ [])
    (h1 : selectLogin dayLogs = Cell.sentinel)
    (h2 : selectLogout dayLogs = Cell.sentinel) :
    (processDay nm wd dayLogs).login = Cell.absent ∧
    (processDay nm wd dayLogs).logout = Cell.absent ∧
    (processDay nm wd dayLogs).exceptions = [] := by
  refine ⟨?_, ?_, ?_⟩ <;> simp [processDay, hd, h1, h2]

/-- The remark rows of a non-empty day, written as a `filterMap`. -/
lemma processDay_remarks (nm : String) (wd : Int) (dayLogs : List RawEvent)
    (hd : dayLogs ≠ []) :
    (processDay nm wd dayLogs).remarks
      = dayLogs.filterMap (fun e => match e.remark with
          | some r => some ⟨nm, wd, timeOnly e.dateTime,
              !(dayLogs.filter fun e2 => e2.eventType == "Start Work").isEmpty
                || !(dayLogs.filter fun e2 => e2.eventType == "Site In").isEmpty,
              !(dayLogs.filter isLogoutType).isEmpty, r⟩
          | none => none) := by
  simp [processDay, hd]

/-! ### Claim theorems -/

/-- C4: the operational day of an event is the calendar date of its
timestamp minus the 5-hour offset (`OFFSET_HOURS`, the single point of
definition), so a 04:59 event and a 05:01 event of the same wall-clock
date land on operational days exactly one apart. -/
theorem assignDay_offset_boundary (d : Int) :
    (∀ t : Int, assignDay t = dateOf (t - OFFSET_HOURS * 60)) ∧
    dateOf (d * 1440 + (4 * 60 + 59)) = dateOf (d * 1440 + (5 * 60 + 1)) ∧
    assignDay (d * 1440 + (5 * 60 + 1)) = assignDay (d * 1440 + (4 * 60 + 59)) + 1 := by
  have h1440 : (1440 : Int) ≠ 0 := by norm_num
  refine ⟨fun t => rfl, ?_, ?_⟩
  · show (d * 1440 + (4 * 60 + 59)) / 1440 = (d * 1440 + (5 * 60 + 1)) / 1440
    have e1 : d * 1440 + (4 * 60 + 59) = 299 + d * 1440 := by ring
    have e2 : d * 1440 + (5 * 60 + 1) = 301 + d * 1440 := by ring
    rw [e1, e2, Int.add_mul_ediv_right _ _ h1440, Int.add_mul_ediv_right _ _ h1440]
    have g1 : (299 : Int) / 1440 = 0 := by decide
    have g2 : (301 : Int) / 1440 = 0 := by decide
    rw [g1, g2]
  · show (d * 1440 + (5 * 60 + 1) - OFFSET_HOURS * 60) / 1440
        = (d * 1440 + (4 * 60 + 59) - OFFSET_HOURS * 60) / 1440 + 1
    have e1 : d * 1440 + (5 * 60 + 1) - OFFSET_HOURS * 60 = 1 + d * 1440 := by
      simp only [OFFSET_HOURS]; ring
    have e2 : d * 1440 + (4 * 60 + 59) - OFFSET_HOURS * 60 = -1 + d * 1440 := by
      simp only [OFFSET_HOURS]; ring
    rw [e1, e2, Int.add_mul_ediv_right _ _ h1440, Int.add_mul_ediv_right _ _ h1440]
    have g1 : (1 : Int) / 1440 = 0 := by decide
    have g2 : (-1 : Int) / 1440 = -1 := by decide
    rw [g1, g2]; ring

/-- C5: a day whose classifier resolves neither a login nor a logout
(zero events, or only unrecognized event types) ends with both cells
absent — not the sentinel strings — and no exception record. -/
theorem empty_day_collapse (nm : String) (wd : Int) (dayLogs : List RawEvent)
    (hlogin : selectLogin dayLogs = Cell.sentinel)
    (hlogout : selectLogout dayLogs = Cell.sentinel) :
    (processDay nm wd dayLogs).login = Cell.absent ∧
    (processDay nm wd dayLogs).logout = Cell.absent ∧
    (processDay nm wd dayLogs).exceptions = [] := by
  by_cases hd : dayLogs = []
  · subst hd; exact ⟨rfl, rfl, rfl⟩
  · exact processDay_cleanup nm wd dayLogs hd hlogin hlogout

/-- C5 witness: a day holding one event of unrecognized type collapses to
an empty record with no exception. -/
theorem empty_day_collapse_witness :
    (selectLogin [⟨"C ONG", 400, "Break", none⟩] = Cell.sentinel ∧
      selectLogout [⟨"C ONG", 400, "Break", none⟩] = Cell.sentinel) ∧
    ((processDay "C. Ong" 0 [⟨"C ONG", 400, "Break", none⟩]).login = Cell.absent ∧
      (processDay "C. Ong" 0 [⟨"C ONG", 400, "Break", none⟩]).logout = Cell.absent ∧
      (processDay "C. Ong" 0 [⟨"C ONG", 400, "Break", none⟩]).exceptions = []) :=
  ⟨⟨by decide, by decide⟩,
    empty_day_collapse "C. Ong" 0 [⟨"C ONG", 400, "Break", none⟩] (by decide) (by decide)⟩

/-- C10: every date `parse_date_manual` accepts carries the hard-coded
year 2026 of app.py line 16, whatever the input was. -/
theorem parse_date_year_fixed (s : String) (r : PyDate)
    (h : parse_date_manual s = some r) : r.year = 2026 := by
  simp only [parse_date_manual] at h
  split at h
  · split at h
    · split at h
      · injection h with h2; subst h2; rfl
      · exact Option.noConfusion h
    · exact Option.noConfusion h
  · exact Option.noConfusion h

/-- C10 witness at the input "23_Jan". -/
theorem parse_date_year_fixed_witness :
    parse_date_manual "23_Jan" = some ⟨2026, 1, 23⟩ ∧
    (⟨2026, 1, 23⟩ : PyDate).year = 2026 :=
  ⟨by decide, parse_date_year_fixed "23_Jan" ⟨2026, 1, 23⟩ (by decide)⟩


set_option maxHeartbeats 2000000 in
/-- Every month number `month_map` returns lies in `1..12`. -/
lemma month_map_bounds (s : String) (m : Nat) (h : month_map s = some m) :
    1 ≤ m ∧ m ≤ 12 := by
  unfold month_map at h
  repeat' split at h
  all_goals try exact Option.noConfusion h
  all_goals (injection h with h2; omega)

/-- C6 counterexample: "15_Xyz" is not a well-formed day-plus-month value
("Xyz" names no month), yet `parse_date_manual` silently turns it into the
valid date 15 January 2026 instead of reporting an invalid date. -/
theorem unknown_month_counterexample :
    parse_date_manual "15_Xyz" = some ⟨2026, 1, 15⟩ ∧
    ¬wellFormedDayMonth "15_Xyz" := by
  refine ⟨by decide, ?_⟩
  rintro ⟨dayTok, monthTok, rest, hsplit, d, m, hday, hmonth, hd1, hd2⟩
  have hs : splitTokens "15_Xyz" = ["15", "Xyz"] := by decide
  rw [hs] at hsplit
  injection hsplit with h1 h2
  injection h2 with h3 h4
  subst h3
  have hnone : month_map (cap3 "Xyz") = none := by decide
  rw [hnone] at hmonth
  exact Option.noConfusion hmonth

/-- C6 amended: an accepted input always yields a valid date of 2026 whose
day comes from the numeric first token (rejections — missing token,
non-numeric day, day out of range — return `None`, distinguishable from
any date), but the month token is not validated: an unrecognized month
name is silently defaulted to January rather than rejected. -/
theorem parse_date_accepts_sound (s : String) (y m d : Nat)
    (h : parse_date_manual s = some ⟨y, m, d⟩) :
    y = 2026 ∧ 1 ≤ m ∧ m ≤ 12 ∧ 1 ≤ d ∧ d ≤ days_in_month m ∧
    ∃ dayTok monthTok rest, splitTokens s = dayTok :: monthTok :: rest ∧
      pyInt dayTok = some (d : Int) ∧
      (month_map (cap3 monthTok) = some m ∨
        (month_map (cap3 monthTok) = none ∧ m = 1)) := by
  simp only [parse_date_manual] at h
  split at h
  case h_2 => exact Option.noConfusion h
  case h_1 dayTok monthTok rest heq =>
    split at h
    case h_2 => exact Option.noConfusion h
    case h_1 dInt hpy =>
      split at h
      case isFalse => exact Option.noConfusion h
      case isTrue hcond =>
        injection h with h2
        have hy : y = 2026 := by cases h2; rfl
        have hm : m = (month_map (cap3 monthTok)).getD 1 := by cases h2; rfl
        have hdn : d = dInt.toNat := by cases h2; rfl
        have hd1 : 1 ≤ dInt := hcond.1
        have hdint : (d : Int) = dInt := by omega
        cases hmm : month_map (cap3 monthTok) with
        | none =>
          rw [hmm] at hm hcond
          simp only [Option.getD_none] at hm hcond
          subst hm
          exact ⟨hy, by omega, by omega, by omega, by omega, dayTok, monthTok, rest, heq,
            by rw [hdint]; exact hpy, Or.inr ⟨hmm, rfl⟩⟩
        | some m1 =>
          rw [hmm] at hm hcond
          simp only [Option.getD_some] at hm hcond
          subst hm
          obtain ⟨hb1, hb2⟩ := month_map_bounds _ _ hmm
          exact ⟨hy, hb1, hb2, by omega, by omega, dayTok, monthTok, rest, heq,
            by rw [hdint]; exact hpy, Or.inl hmm⟩

/-- C6 amended witness at the accepted input "23_Jan". -/
theorem parse_date_accepts_sound_witness :
    parse_date_manual "23_Jan" = some ⟨2026, 1, 23⟩ ∧
    (2026 = 2026 ∧ 1 ≤ 1 ∧ 1 ≤ 12 ∧ 1 ≤ 23 ∧ 23 ≤ days_in_month 1 ∧
      ∃ dayTok monthTok rest, splitTokens "23_Jan" = dayTok :: monthTok :: rest ∧
        pyInt dayTok = some ((23 : Nat) : Int) ∧
        (month_map (cap3 monthTok) = some 1 ∨
          (month_map (cap3 monthTok) = none ∧ 1 = 1))) :=
  ⟨by decide, parse_date_accepts_sound "23_Jan" 2026 1 23 (by decide)⟩

/-- C2: on a non-empty day, logout selection pools the `End Work` and
`Site Out` events and picks a latest-by-timestamp element of the merged
pool (no priority between the two types); an empty pool yields the
`NO LOGOUT` sentinel.  When the pool is non-empty the day's resolved
logout is that element's time of day. -/
theorem logout_pooled_max (nm : String) (wd : Int) (dayLogs : List RawEvent)
    (hne : dayLogs ≠ []) :
    (dayLogs.filter isLogoutType = [] → selectLogout dayLogs = Cell.sentinel) ∧
    (dayLogs.filter isLogoutType ≠ [] →
      ∃ e, e ∈ dayLogs.filter isLogoutType ∧
        selectLogout dayLogs = Cell.time (timeOnly e.dateTime) ∧
        (∀ f ∈ dayLogs.filter isLogoutType, f.dateTime ≤ e.dateTime) ∧
        (processDay nm wd dayLogs).logout = Cell.time (timeOnly e.dateTime)) := by
  constructor
  · intro hpool
    unfold selectLogout
    rw [hpool]
    rfl
  · intro hpool
    cases hl : latest (dayLogs.filter isLogoutType) with
    | none =>
      exact absurd (List.argmax_eq_none.mp hl) hpool
    | some e =>
      have hlm : e ∈ (dayLogs.filter isLogoutType).argmax (fun x => x.dateTime) := hl
      have hsel : selectLogout dayLogs = Cell.time (timeOnly e.dateTime) := by
        unfold selectLogout
        rw [hl]
      refine ⟨e, List.argmax_mem hlm, hsel, ?_, ?_⟩
      · intro f hf
        exact List.le_of_mem_argmax hf hlm
      · have hc : ¬(selectLogin dayLogs = Cell.sentinel ∧
            selectLogout dayLogs = Cell.sentinel) := by
          rintro ⟨h1, h2⟩
          rw [hsel] at h2
          exact Cell.noConfusion h2
        rw [(processDay_no_cleanup nm wd dayLogs hne hc).2.1, hsel]

/-- C2 witness: the A. Lee scenario — StartWork@05:05 and SiteOut@13:00 on
day 0; the pooled logout is the SiteOut at 13:00. -/
theorem logout_pooled_max_witness :
    ([⟨"A LEE", 305, "Start Work", none⟩, ⟨"A LEE", 780, "Site Out", none⟩] ≠
        ([] : List RawEvent)) ∧
    (([⟨"A LEE", 305, "Start Work", none⟩,
        ⟨"A LEE", 780, "Site Out", none⟩].filter isLogoutType = [] →
      selectLogout [⟨"A LEE", 305, "Start Work", none⟩,
        ⟨"A LEE", 780, "Site Out", none⟩] = Cell.sentinel) ∧
    ([⟨"A LEE", 305, "Start Work", none⟩,
        ⟨"A LEE", 780, "Site Out", none⟩].filter isLogoutType ≠ [] →
      ∃ e, e ∈ [⟨"A LEE", 305, "Start Work", none⟩,
          ⟨"A LEE", 780, "Site Out", none⟩].filter isLogoutType ∧
        selectLogout [⟨"A LEE", 305, "Start Work", none⟩,
          ⟨"A LEE", 780, "Site Out", none⟩] = Cell.time (timeOnly e.dateTime) ∧
        (∀ f ∈ [⟨"A LEE", 305, "Start Work", none⟩,
            ⟨"A LEE", 780, "Site Out", none⟩].filter isLogoutType,
          f.dateTime ≤ e.dateTime) ∧
        (processDay "A. Lee" 0 [⟨"A LEE", 305, "Start Work", none⟩,
          ⟨"A LEE", 780, "Site Out", none⟩]).logout = Cell.time (timeOnly e.dateTime))) :=
  ⟨by decide, logout_pooled_max "A. Lee" 0
    [⟨"A LEE", 305, "Start Work", none⟩, ⟨"A LEE", 780, "Site Out", none⟩] (by decide)⟩

/-- C3: on a non-empty day, login selection takes the earliest `Start Work`
event when one exists — regardless of any earlier `Site In` — else the
earliest `Site In`, else the `NO LOGIN` sentinel; in the first two cases
the day's resolved login is that element's time of day. -/
theorem login_selection_priority (nm : String) (wd : Int) (dayLogs : List RawEvent)
    (hne : dayLogs ≠ []) :
    ((dayLogs.filter fun e => e.eventType == "Start Work") ≠ [] →
      ∃ e, e ∈ (dayLogs.filter fun e2 => e2.eventType == "Start Work") ∧
        selectLogin dayLogs = Cell.time (timeOnly e.dateTime) ∧
        (∀ f ∈ (dayLogs.filter fun e2 => e2.eventType == "Start Work"),
          e.dateTime ≤ f.dateTime) ∧
        (processDay nm wd dayLogs).login = Cell.time (timeOnly e.dateTime)) ∧
    ((dayLogs.filter fun e => e.eventType == "Start Work") = [] →
      (dayLogs.filter fun e => e.eventType == "Site In") ≠ [] →
      ∃ e, e ∈ (dayLogs.filter fun e2 => e2.eventType == "Site In") ∧
        selectLogin dayLogs = Cell.time (timeOnly e.dateTime) ∧
        (∀ f ∈ (dayLogs.filter fun e2 => e2.eventType == "Site In"),
          e.dateTime ≤ f.dateTime) ∧
        (processDay nm wd dayLogs).login = Cell.time (timeOnly e.dateTime)) ∧
    ((dayLogs.filter fun e => e.eventType == "Start Work") = [] →
      (dayLogs.filter fun e => e.eventType == "Site In") = [] →
      selectLogin dayLogs = Cell.sentinel) := by
  refine ⟨?_, ?_, ?_⟩
  · intro hS
    cases he : earliest (dayLogs.filter fun e => e.eventType == "Start Work") with
    | none => exact absurd (List.argmin_eq_none.mp he) hS
    | some e =>
      have hem : e ∈ (dayLogs.filter fun e2 =>
          e2.eventType == "Start Work").argmin (fun x => x.dateTime) := he
      have hsel : selectLogin dayLogs = Cell.time (timeOnly e.dateTime) := by
        unfold selectLogin
        rw [he]
      refine ⟨e, List.argmin_mem hem, hsel, ?_, ?_⟩
      · intro f hf
        exact List.le_of_mem_argmin hf hem
      · have hc : ¬(selectLogin dayLogs = Cell.sentinel ∧
            selectLogout dayLogs = Cell.sentinel) := by
          rintro ⟨h1, h2⟩
          rw [hsel] at h1
          exact Cell.noConfusion h1
        rw [(processDay_no_cleanup nm wd dayLogs hne hc).1, hsel]
  · intro hS hI
    cases he : earliest (dayLogs.filter fun e => e.eventType == "Site In") with
    | none => exact absurd (List.argmin_eq_none.mp he) hI
    | some e =>
      have hem : e ∈ (dayLogs.filter fun e2 =>
          e2.eventType == "Site In").argmin (fun x => x.dateTime) := he
      have hsel : selectLogin dayLogs = Cell.time (timeOnly e.dateTime) := by
        unfold selectLogin
        rw [hS]
        show (match earliest ([] : List RawEvent) with
          | some e => Cell.time (timeOnly e.dateTime)
          | none =>
            match earliest (dayLogs.filter fun e => e.eventType == "Site In") with
            | some e => Cell.time (timeOnly e.dateTime)
            | none => Cell.sentinel) = Cell.time (timeOnly e.dateTime)
        rw [show earliest ([] : List RawEvent) = none from rfl, he]
      refine ⟨e, List.argmin_mem hem, hsel, ?_, ?_⟩
      · intro f hf
        exact List.le_of_mem_argmin hf hem
      · have hc : ¬(selectLogin dayLogs = Cell.sentinel ∧
            selectLogout dayLogs = Cell.sentinel) := by
          rintro ⟨h1, h2⟩
          rw [hsel] at h1
          exact Cell.noConfusion h1
        rw [(processDay_no_cleanup nm wd dayLogs hne hc).1, hsel]
  · intro hS hI
    unfold selectLogin
    rw [hS, hI]
    rfl

/-- C3 witness: a day where a SiteIn (13:20) precedes a StartWork (15:00);
login still resolves to the StartWork. -/
theorem login_selection_priority_witness :
    (([⟨"A LEE", 800, "Site In", none⟩, ⟨"A LEE", 900, "Start Work", none⟩] :
        List RawEvent) ≠ []) ∧
    (((([⟨"A LEE", 800, "Site In", none⟩, ⟨"A LEE", 900, "Start Work", none⟩] :
          List RawEvent).filter fun e => e.eventType == "Start Work") ≠ [] →
      ∃ e, e ∈ (([⟨"A LEE", 800, "Site In", none⟩,
            ⟨"A LEE", 900, "Start Work", none⟩] : List RawEvent).filter
          fun e2 => e2.eventType == "Start Work") ∧
        selectLogin ([⟨"A LEE", 800, "Site In", none⟩,
          ⟨"A LEE", 900, "Start Work", none⟩] : List RawEvent)
            = Cell.time (timeOnly e.dateTime) ∧
        (∀ f ∈ (([⟨"A LEE", 800, "Site In", none⟩,
              ⟨"A LEE", 900, "Start Work", none⟩] : List RawEvent).filter
            fun e2 => e2.eventType == "Start Work"), e.dateTime ≤ f.dateTime) ∧
        (processDay "A. Lee" 0 ([⟨"A LEE", 800, "Site In", none⟩,
          ⟨"A LEE", 900, "Start Work", none⟩] : List RawEvent)).login
            = Cell.time (timeOnly e.dateTime)) ∧
    (((([⟨"A LEE", 800, "Site In", none⟩, ⟨"A LEE", 900, "Start Work", none⟩] :
          List RawEvent).filter fun e => e.eventType == "Start Work") = []) →
      ((([⟨"A LEE", 800, "Site In", none⟩, ⟨"A LEE", 900, "Start Work", none⟩] :
          List RawEvent).filter fun e => e.eventType == "Site In") ≠ []) →
      ∃ e, e ∈ (([⟨"A LEE", 800, "Site In", none⟩,
            ⟨"A LEE", 900, "Start Work", none⟩] : List RawEvent).filter
          fun e2 => e2.eventType == "Site In") ∧
        selectLogin ([⟨"A LEE", 800, "Site In", none⟩,
          ⟨"A LEE", 900, "Start Work", none⟩] : List RawEvent)
            = Cell.time (timeOnly e.dateTime) ∧
        (∀ f ∈ (([⟨"A LEE", 800, "Site In", none⟩,
              ⟨"A LEE", 900, "Start Work", none⟩] : List RawEvent).filter
            fun e2 => e2.eventType == "Site In"), e.dateTime ≤ f.dateTime) ∧
        (processDay "A. Lee" 0 ([⟨"A LEE", 800, "Site In", none⟩,
          ⟨"A LEE", 900, "Start Work", none⟩] : List RawEvent)).login
            = Cell.time (timeOnly e.dateTime)) ∧
    (((([⟨"A LEE", 800, "Site In", none⟩, ⟨"A LEE", 900, "Start Work", none⟩] :
          List RawEvent).filter fun e => e.eventType == "Start Work") = []) →
      ((([⟨"A LEE", 800, "Site In", none⟩, ⟨"A LEE", 900, "Start Work", none⟩] :
          List RawEvent).filter fun e => e.eventType == "Site In") = []) →
      selectLogin ([⟨"A LEE", 800, "Site In", none⟩,
        ⟨"A LEE", 900, "Start Work", none⟩] : List RawEvent) = Cell.sentinel)) :=
  ⟨by decide, login_selection_priority "A. Lee" 0
    [⟨"A LEE", 800, "Site In", none⟩, ⟨"A LEE", 900, "Start Work", none⟩] (by decide)⟩

/-- C1 counterexample: the spec's B. Tan scenario — a day holding exactly
one SiteIn event (06:00, day 0) and no SiteOut.  The engine emits only the
`Missing Logout` record; no record with reason "Missing Site Out" exists
anywhere in the output, because app.py lines 126–130 implement no such
rule. -/
theorem missing_siteout_counterexample :
    (processDay "B. Tan" 0 [⟨"B TAN", 360, "Site In", none⟩]).exceptions
        = [⟨"B. Tan", 0, Cell.time 360, "Missing Logout"⟩] ∧
    ((processDay "B. Tan" 0 [⟨"B TAN", 360, "Site In", none⟩]).exceptions.filter
        fun r => r.reason == "Missing Site Out") = [] :=
  ⟨by decide, by decide⟩

/-- C1 amended: the per-day anomaly detector emits only the two reasons
`Missing Logout` and `Logout without Login`; a day whose events include a
SiteIn type but no SiteOut type gets no additional `MissingSiteOut`
record (that check does not exist in the code). -/
theorem exception_reason_cases (nm : String) (wd : Int) (dayLogs : List RawEvent)
    (r : ExceptionRec) (hr : r ∈ (processDay nm wd dayLogs).exceptions) :
    r.reason = "Missing Logout" ∨ r.reason = "Logout without Login" := by
  by_cases hd : dayLogs = []
  · subst hd
    simp [processDay] at hr
  · by_cases hc : selectLogin dayLogs = Cell.sentinel ∧ selectLogout dayLogs = Cell.sentinel
    · rw [(processDay_cleanup nm wd dayLogs hd hc.1 hc.2).2.2] at hr
      simp at hr
    · rw [(processDay_no_cleanup nm wd dayLogs hd hc).2.2] at hr
      split at hr
      · simp at hr
        subst hr
        exact Or.inl rfl
      · split at hr
        · simp at hr
          subst hr
          exact Or.inr rfl
        · simp at hr

/-- C1 amended witness at the B. Tan day. -/
theorem exception_reason_cases_witness :
    ((⟨"B. Tan", 0, Cell.time 360, "Missing Logout"⟩ : ExceptionRec) ∈
      (processDay "B. Tan" 0 [⟨"B TAN", 360, "Site In", none⟩]).exceptions) ∧
    ((⟨"B. Tan", 0, Cell.time 360, "Missing Logout"⟩ : ExceptionRec).reason
        = "Missing Logout" ∨
      (⟨"B. Tan", 0, Cell.time 360, "Missing Logout"⟩ : ExceptionRec).reason
        = "Logout without Login") :=
  ⟨by decide, exception_reason_cases "B. Tan" 0 [⟨"B TAN", 360, "Site In", none⟩]
    ⟨"B. Tan", 0, Cell.time 360, "Missing Logout"⟩ (by decide)⟩

/-- C9: every `Missing Logout` exception carries a real login time: its
day's resolved login is a concrete time (never the sentinel, never
absent), and the record's Time field equals it — the empty-day cleanup
running before the anomaly rules makes any other shape unreachable. -/
theorem missing_logout_has_real_login (nm : String) (wd : Int)
    (dayLogs : List RawEvent) (r : ExceptionRec)
    (hr : r ∈ (processDay nm wd dayLogs).exceptions)
    (hreason : r.reason = "Missing Logout") :
    ∃ t, (processDay nm wd dayLogs).login = Cell.time t ∧ r.time = Cell.time t := by
  by_cases hd : dayLogs = []
  · subst hd
    simp [processDay] at hr
  · by_cases hc : selectLogin dayLogs = Cell.sentinel ∧ selectLogout dayLogs = Cell.sentinel
    · rw [(processDay_cleanup nm wd dayLogs hd hc.1 hc.2).2.2] at hr
      simp at hr
    · obtain ⟨hlog, hlou, hexc⟩ := processDay_no_cleanup nm wd dayLogs hd hc
      rw [hexc] at hr
      split at hr
      next hcond =>
        simp at hr
        subst hr
        have h4 : ¬selectLogin dayLogs = Cell.sentinel := fun hs => hc ⟨hs, hcond.1⟩
        rcases selectLogin_cases dayLogs with h5 | ⟨t, h5⟩
        · exact absurd h5 h4
        · exact ⟨t, by rw [hlog, h5], by simp [h5]⟩
      next =>
        split at hr
        · simp at hr
          subst hr
          simp at hreason
        · simp at hr

/-- C9 witness: a day with one StartWork at 06:00 and no logout event —
the `Missing Logout` record carries the real login time 06:00. -/
theorem missing_logout_has_real_login_witness :
    ((⟨"D. Ray", 0, Cell.time 360, "Missing Logout"⟩ : ExceptionRec) ∈
      (processDay "D. Ray" 0 [⟨"D RAY", 360, "Start Work", none⟩]).exceptions) ∧
    ((⟨"D. Ray", 0, Cell.time 360, "Missing Logout"⟩ : ExceptionRec).reason
      = "Missing Logout") ∧
    (∃ t, (processDay "D. Ray" 0 [⟨"D RAY", 360, "Start Work", none⟩]).login
        = Cell.time t ∧
      (⟨"D. Ray", 0, Cell.time 360, "Missing Logout"⟩ : ExceptionRec).time
        = Cell.time t) :=
  ⟨by decide, by decide,
    missing_logout_has_real_login "D. Ray" 0 [⟨"D RAY", 360, "Start Work", none⟩]
      ⟨"D. Ray", 0, Cell.time 360, "Missing Logout"⟩ (by decide) (by decide)⟩

/-- The remark projection of the `filterMap` of `processDay` over ingested
rows equals the remark projection of the rows with non-empty remark. -/
lemma filterMap_remark_proj (nm : String) (wd : Int) (hl ho : Bool)
    (rows : List RawRow) :
    (((rows.map ingest).filterMap fun e =>
        match e.remark with
        | some r =>
          some (⟨nm, wd, timeOnly e.dateTime, hl, ho, r⟩ : RemarkRec)
        | none => none).map fun r => r.remark)
      = ((rows.filter fun r => !(r.remark == "")).map fun r => r.remark) := by
  induction rows with
  | nil => rfl
  | cons a t ih =>
    rw [List.map_cons, List.filterMap_cons, List.filter_cons]
    by_cases ha : a.remark = ""
    · have h1 : ingest a = ⟨a.name, a.dateTime, a.eventType, none⟩ := by
        simp [ingest, ha]
      have h2 : (!(a.remark == "")) = false := by simp [ha]
      rw [h1, h2]
      simpa using ih
    · have h1 : ingest a = ⟨a.name, a.dateTime, a.eventType, some a.remark⟩ := by
        simp [ingest, ha]
      have h2 : (!(a.remark == "")) = true := by simp [ha]
      rw [h1, h2]
      simp only [if_true]
      rw [List.map_cons]
      dsimp only
      rw [List.map_cons, ih]

/-- C8: the engine emits exactly one remark row per ingested event whose
remark cell is non-empty (an empty cell arrives as `NaN` and is skipped by
the `notna` filter of app.py line 134), irrespective of login/logout
selection; the rows carry exactly those remark texts. -/
theorem remark_rows_exact (nm : String) (wd : Int) (rows : List RawRow) :
    (((processDay nm wd (rows.map ingest)).remarks).map fun r => r.remark)
        = ((rows.filter fun r => !(r.remark == "")).map fun r => r.remark) ∧
    ((processDay nm wd (rows.map ingest)).remarks).length
        = rows.countP fun r => !(r.remark == "") := by
  have hmain : (((processDay nm wd (rows.map ingest)).remarks).map
      fun r => r.remark)
        = ((rows.filter fun r => !(r.remark == "")).map fun r => r.remark) := by
    by_cases hd : rows = []
    · subst hd
      rfl
    · have hd2 : rows.map ingest ≠ [] := by
        intro hmap
        exact hd (List.map_eq_nil_iff.mp hmap)
      rw [processDay_remarks nm wd (rows.map ingest) hd2]
      exact filterMap_remark_proj nm wd _ _ rows
  refine ⟨hmain, ?_⟩
  have hlen := congrArg List.length hmain
  simpa [List.countP_eq_length_filter] using hlen

/-! ### Roster-map lemmas (app.py line 78) -/

/-- `lookupKey` after an `upsert`: the upserted key maps to the new value,
every other key is untouched. -/
lemma lookupKey_upsert (m : List (String × String)) (k v q : String) :
    lookupKey (upsert m k v) q = if k = q then some v else lookupKey m q := by
  induction m with
  | nil =>
    simp only [upsert, lookupKey]
  | cons p rest ih =>
    simp only [upsert]
    by_cases hp : p.1 = k
    · rw [if_pos hp]
      simp only [lookupKey]
      by_cases hq : k = q
      · rw [if_pos hq, if_pos hq]
      · have hpq : ¬p.1 = q := fun h => hq (hp.symm.trans h)
        rw [if_neg hq, if_neg hq, if_neg hpq]
    · rw [if_neg hp]
      simp only [lookupKey]
      by_cases hpq : p.1 = q
      · have hkq : ¬k = q := fun h => hp (hpq.trans h.symm)
        rw [if_pos hpq, if_neg hkq, if_pos hpq]
      · rw [if_neg hpq, if_neg hpq, ih]

/-- The keys after an `upsert`: unchanged when the key was present, the
key appended otherwise. -/
lemma keys_upsert (m : List (String × String)) (k v : String) :
    (upsert m k v).map Prod.fst
      = if k ∈ m.map Prod.fst then m.map Prod.fst
        else m.map Prod.fst ++ [k] := by
  induction m with
  | nil => simp [upsert]
  | cons p rest ih =>
    by_cases hp : p.1 = k
    · simp [upsert, hp]
    · have hkp : ¬k = p.1 := fun h => hp h.symm
      simp only [upsert, if_neg hp, List.map_cons, List.mem_cons, ih]
      by_cases hk : k ∈ rest.map Prod.fst
      · simp [hk, hkp]
      · simp [hk, hkp]

/-- `upsert` preserves distinctness of the keys. -/
lemma nodup_keys_upsert (m : List (String × String)) (k v : String)
    (h : (m.map Prod.fst).Nodup) : ((upsert m k v).map Prod.fst).Nodup := by
  rw [keys_upsert]
  split
  · exact h
  · next hk =>
    refine List.Nodup.append h (List.nodup_singleton k) ?_
    intro x hx hx2
    simp only [List.mem_singleton] at hx2
    subst hx2
    exact hk hx

/-- Folding roster names into the map: a key's value is the last matching
name of the fold's input, else whatever the accumulator held. -/
lemma attFold_lookup (ns : List String) (acc : List (String × String)) (q : String) :
    lookupKey (ns.foldl (fun m n => upsert m (clean_name n) n) acc) q
      = Option.or (ns.reverse.find? fun n => clean_name n == q) (lookupKey acc q) := by
  induction ns generalizing acc with
  | nil => simp
  | cons a t ih =>
    simp only [List.foldl_cons, List.reverse_cons]
    rw [ih, List.find?_append]
    cases hf : t.reverse.find? (fun n => clean_name n == q) with
    | some n => simp
    | none =>
      simp only [Option.none_or]
      rw [lookupKey_upsert]
      by_cases hk : clean_name a = q
      · simp [List.find?, hk]
      · have hk2 : (clean_name a == q) = false := by
          simp [hk]
        simp [List.find?, hk, hk2]

/-- `attendance_map` lookup: for any key, the retained original name is
the last roster row whose normalized name equals the key. -/
lemma attendance_map_lookup (roster : List String) (q : String) :
    lookupKey (attendance_map roster) q
      = roster.reverse.find? fun n => clean_name n == q := by
  have h := attFold_lookup roster [] q
  simp only [lookupKey] at h
  rw [attendance_map, h]
  cases roster.reverse.find? fun n => clean_name n == q <;> rfl

/-- The fold preserves distinctness of the keys. -/
lemma attFold_nodup (ns : List String) (acc : List (String × String))
    (h : (acc.map Prod.fst).Nodup) :
    (((ns.foldl (fun m n => upsert m (clean_name n) n) acc)).map Prod.fst).Nodup := by
  induction ns generalizing acc with
  | nil => exact h
  | cons a t ih =>
    exact ih (upsert acc (clean_name a) a) (nodup_keys_upsert acc (clean_name a) a h)

/-- The keys of `attendance_map` are distinct: one entry per normalized
key. -/
lemma attendance_map_keys_nodup (roster : List String) :
    ((attendance_map roster).map Prod.fst).Nodup :=
  attFold_nodup roster [] (by simp)

/-- A key occurs among the map's keys exactly when its lookup succeeds. -/
lemma mem_keys_iff (m : List (String × String)) (q : String) :
    q ∈ m.map Prod.fst ↔ lookupKey m q ≠ none := by
  induction m with
  | nil => simp [lookupKey]
  | cons p rest ih =>
    by_cases hp : p.1 = q
    · simp [lookupKey, hp]
    · have hp2 : ¬q = p.1 := fun h => hp h.symm
      simp [lookupKey, hp, hp2, ih]

/-- C7: when some roster row normalizes to key `k`, the engine's map holds
exactly one entry for `k`, the retained original name is the last-listed
roster row normalizing to `k`, and `process_data` emits exactly one
summary-row result set per map entry, keyed by that retained name. -/
theorem roster_last_wins (roster : List String) (k : String)
    (h : ∃ n, n ∈ roster ∧ clean_name n = k) :
    ((attendance_map roster).map Prod.fst).count k = 1 ∧
    lookupKey (attendance_map roster) k
      = (roster.reverse.find? fun n => clean_name n == k) ∧
    ∀ events start, (process_data events roster start).map Prod.fst
      = (attendance_map roster).map Prod.snd := by
  refine ⟨?_, attendance_map_lookup roster k, ?_⟩
  · have hfind : (roster.reverse.find? fun n => clean_name n == k) ≠ none := by
      intro hnone
      rw [List.find?_eq_none] at hnone
      obtain ⟨n, hn, hk⟩ := h
      exact hnone n (List.mem_reverse.mpr hn) (by simp [hk])
    have hmem : k ∈ (attendance_map roster).map Prod.fst := by
      rw [mem_keys_iff, attendance_map_lookup]
      exact hfind
    exact List.count_eq_one_of_mem (attendance_map_keys_nodup roster) hmem
  · intro events start
    rw [process_data, List.map_map]
    rfl

/-- C7 witness: the spec's "J. Smith" / "J SMITH" roster — one entry,
keyed "JSMITH", retaining the later row "J SMITH". -/
theorem roster_last_wins_witness :
    (∃ n, n ∈ ["J. Smith", "J SMITH"] ∧ clean_name n = "JSMITH") ∧
    (((attendance_map ["J. Smith", "J SMITH"]).map Prod.fst).count "JSMITH" = 1 ∧
      lookupKey (attendance_map ["J. Smith", "J SMITH"]) "JSMITH"
        = ((["J. Smith", "J SMITH"] : List String).reverse.find?
            fun n => clean_name n == "JSMITH") ∧
      ∀ events start,
        (process_data events ["J. Smith", "J SMITH"] start).map Prod.fst
          = (attendance_map ["J. Smith", "J SMITH"]).map Prod.snd) :=
  ⟨⟨"J. Smith", by decide, by decide⟩,
    roster_last_wins ["J. Smith", "J SMITH"] "JSMITH"
      ⟨"J. Smith", by decide, by decide⟩⟩
